import Mathlib

/-!
Shallow embedding of the TrustiPay user app (src/src/App.tsx).

The app is a single client-side component whose in-scope logic is a
screen/navigation state machine plus a transfer-validation workflow over
in-memory state.  Every mutable `useState` field touched by the in-scope
logic becomes a field of `AppState`; every event handler becomes a pure
function `AppState → AppState` (nondeterministic inputs — wall clock,
`Math.random`, camera availability — become explicit parameters).
JavaScript numbers are modelled as `JSNum`: either NaN, ±Infinity, or a
finite rational (ℚ stands in for IEEE doubles; the amounts involved are
small decimals, far from any double-precision artefact).
-/

namespace TrustiPay

/-- The `Screen` union type of App.tsx. -/
inductive Screen
  | login | home | transfer | confirm | success | history | offline | offlineSuccess
  deriving DecidableEq, Repr

/-- Direction of a history entry (`"sent" | "received"`). -/
inductive Direction
  | sent | received
  deriving DecidableEq, Repr

/-- The `historyFilter` state (`"all" | "sent" | "received"`). -/
inductive HistoryFilter
  | all | sent | received
  deriving DecidableEq, Repr

/-- `biometricStatus` (`"idle" | "verifying" | "verified"`). -/
inductive BiometricStatus
  | idle | verifying | verified
  deriving DecidableEq, Repr

/-- `cameraStatus` (`"idle" | "requesting" | "scanning" | "error"`). -/
inductive CameraStatus
  | idle | requesting | scanning | error
  deriving DecidableEq, Repr

/-- `TransferDraft` of App.tsx: raw user input. -/
structure TransferDraft where
  recipient : String
  amount : String
  note : String
  deriving DecidableEq, Repr

/-- `TransferDetail` of App.tsx: a validated transfer. -/
structure TransferDetail where
  recipient : String
  amount : ℚ
  note : String
  reference : String
  timestamp : Int
  deriving DecidableEq, Repr

/-- `HistoryEntry` of App.tsx. -/
structure HistoryEntry where
  id : String
  recipient : String
  note : String
  amount : ℚ
  direction : Direction
  timestamp : Int
  deriving DecidableEq, Repr

/-- The wall clock as read by the source (`Date.now()` in milliseconds and
`new Date().getFullYear()`), passed in explicitly. -/
structure Clock where
  nowMs : Int
  year : Nat
  deriving DecidableEq, Repr

/-- All `useState` fields of the App component that the in-scope logic
reads or writes.  `cameraStream : Bool` records whether a media stream is
currently held (the stream object itself is an external resource).
The purely cosmetic `isBooting` splash flag is omitted: no in-scope
handler reads it. -/
structure AppState where
  screen : Screen
  userName : String
  loginName : String
  loginPin : String
  rememberMe : Bool
  loginError : String
  draft : TransferDraft
  pendingTransfer : Option TransferDetail
  lastTransfer : Option TransferDetail
  history : List HistoryEntry
  balance : ℚ
  transferError : String
  historyFilter : HistoryFilter
  historySearch : String
  biometricStatus : BiometricStatus
  cameraStatus : CameraStatus
  cameraError : String
  offlineScanResult : String
  offlineRecordedAt : Option Int
  cameraStream : Bool
  deriving DecidableEq, Repr

/-! ## JavaScript string and number primitives -/

/-- JavaScript whitespace as trimmed by `String.prototype.trim` /
`Number(string)` (ASCII part plus NBSP and BOM). -/
def isJSWhitespace (c : Char) : Bool :=
  c = ' ' || c = '\t' || c = '\n' || c = '\r' ||
  c = Char.ofNat 11 || c = Char.ofNat 12 || c = Char.ofNat 0xA0 || c = Char.ofNat 0xFEFF

/-- `str.trim()`. -/
def jsTrim (str : String) : String :=
  String.mk (((str.data.dropWhile isJSWhitespace).reverse.dropWhile isJSWhitespace).reverse)

/-- `str.replace(/,/g, "")` — strips every grouping separator. -/
def stripGrouping (str : String) : String :=
  String.mk (str.data.filter (fun c => c ≠ ','))

/-- ASCII lower-casing, as `toLowerCase` acts on the strings in scope. -/
def jsToLower (str : String) : String :=
  String.mk (str.data.map Char.toLower)

/-- `haystack.includes(needle)` on char lists: contiguous-substring test
(the empty needle always matches). -/
def hasSubstr : List Char → List Char → Bool
  | needle, [] => needle.isEmpty
  | needle, c :: t => needle.isPrefixOf (c :: t) || hasSubstr needle t

/-- `a.includes(b)`. -/
def jsIncludes (a b : String) : Bool :=
  hasSubstr b.data a.data

/-- A JavaScript number: NaN, an infinity, or a finite value
(approximated by an exact rational). -/
inductive JSNum
  | nan | posInf | negInf | fin (q : ℚ)
  deriving DecidableEq, Repr

/-- JS boolean coercion of a number: `NaN` and `0` are falsy. -/
def JSNum.truthy : JSNum → Bool
  | .nan => false
  | .posInf => true
  | .negInf => true
  | .fin q => decide (q ≠ 0)

/-- `v <= 0` in JS (every comparison with NaN is false). -/
def JSNum.leZero : JSNum → Bool
  | .nan => false
  | .posInf => false
  | .negInf => true
  | .fin q => decide (q ≤ 0)

/-- `v > b` in JS, against a finite bound. -/
def JSNum.gtQ : JSNum → ℚ → Bool
  | .nan, _ => false
  | .posInf, _ => true
  | .negInf, _ => false
  | .fin q, b => decide (b < q)

/-- Negation, for a leading minus sign. -/
def JSNum.neg : JSNum → JSNum
  | .nan => .nan
  | .posInf => .negInf
  | .negInf => .posInf
  | .fin q => .fin (-q)

/-- Numeric value of a decimal digit character. -/
def digitVal (c : Char) : Nat := c.toNat - '0'.toNat

/-- Value of a (possibly empty) list of decimal digits. -/
def digitsToNat (cs : List Char) : Nat :=
  cs.foldl (fun a c => 10 * a + digitVal c) 0

/-- Value of a hex digit character, if any. -/
def hexVal (c : Char) : Option Nat :=
  if c.isDigit then some (digitVal c)
  else if 'a' ≤ c ∧ c ≤ 'f' then some (c.toNat - 'a'.toNat + 10)
  else if 'A' ≤ c ∧ c ≤ 'F' then some (c.toNat - 'A'.toNat + 10)
  else none

/-- Value of a digit character in the given radix, if valid. -/
def radixVal (radix : Nat) (c : Char) : Option Nat :=
  match hexVal c with
  | some v => if v < radix then some v else none
  | none => none

/-- Value of a nonempty digit string in the given radix. -/
def radixToNat (radix : Nat) (cs : List Char) : Option Nat :=
  if cs.isEmpty then none
  else cs.foldl
    (fun acc c => acc.bind (fun a => (radixVal radix c).map (fun v => radix * a + v)))
    (some 0)

/-- `StrUnsignedDecimalLiteral` mantissa: `digits [. digits]` or `. digits`. -/
def parseMantissa (cs : List Char) : Option ℚ :=
  let ip := cs.takeWhile Char.isDigit
  let r1 := cs.dropWhile Char.isDigit
  match r1 with
  | [] => if ip.isEmpty then none else some ((digitsToNat ip : ℚ))
  | '.' :: r2 =>
    let fp := r2.takeWhile Char.isDigit
    let r3 := r2.dropWhile Char.isDigit
    if r3.isEmpty then
      if ip.isEmpty && fp.isEmpty then none
      else some ((digitsToNat ip : ℚ) + (digitsToNat fp : ℚ) / (10 : ℚ) ^ fp.length)
    else none
  | _ => none

/-- Exponent part after `e`/`E`: optional sign then nonempty digits. -/
def parseExpPart (cs : List Char) : Option Int :=
  let sd : Int × List Char :=
    match cs with
    | '+' :: r => (1, r)
    | '-' :: r => (-1, r)
    | _ => (1, cs)
  if sd.2.isEmpty then none
  else if sd.2.all Char.isDigit then some (sd.1 * (digitsToNat sd.2 : Int))
  else none

/-- `StrUnsignedDecimalLiteral` without the `Infinity` keyword. -/
def parseUnsignedDec (cs : List Char) : Option ℚ :=
  let m := cs.takeWhile (fun c => c ≠ 'e' && c ≠ 'E')
  let r := cs.dropWhile (fun c => c ≠ 'e' && c ≠ 'E')
  match r with
  | [] => parseMantissa m
  | _ :: ex =>
    (parseMantissa m).bind (fun mv =>
      (parseExpPart ex).map (fun ev => mv * (10 : ℚ) ^ ev))

/-- `NonDecimalIntegerLiteral`: `0x`/`0o`/`0b` literals (no sign allowed). -/
def parseNonDecimal (cs : List Char) : Option ℚ :=
  match cs with
  | '0' :: x :: rest =>
    if x = 'x' || x = 'X' then (radixToNat 16 rest).map (fun n => (n : ℚ))
    else if x = 'o' || x = 'O' then (radixToNat 8 rest).map (fun n => (n : ℚ))
    else if x = 'b' || x = 'B' then (radixToNat 2 rest).map (fun n => (n : ℚ))
    else none
  | _ => none

/-- Unsigned decimal literal including the `Infinity` keyword. -/
def parseDecTop (cs : List Char) : Option JSNum :=
  if cs = "Infinity".data then some .posInf
  else (parseUnsignedDec cs).map .fin

/-- `StrNumericLiteral`: optionally signed decimal, or unsigned non-decimal. -/
def parseNumericLiteral (cs : List Char) : Option JSNum :=
  match cs with
  | '+' :: r => parseDecTop r
  | '-' :: r => (parseDecTop r).map JSNum.neg
  | _ =>
    match parseNonDecimal cs with
    | some q => some (.fin q)
    | none => parseDecTop cs

/-- `Number(str)` (ECMAScript StringToNumber): trim whitespace, empty means
zero, otherwise parse a numeric literal or give NaN. -/
def jsParseNumber (str : String) : JSNum :=
  let t := jsTrim str
  if t.data.isEmpty then .fin 0
  else (parseNumericLiteral t.data).getD .nan

/-- `Math.round`: round half toward positive infinity. -/
def jsRound (q : ℚ) : Int := Int.floor (q + 1 / 2)

/-- `Math.round(q * 100) / 100` as in `handleContinueToConfirm`. -/
def round2 (q : ℚ) : ℚ := ((jsRound (q * 100) : ℚ)) / 100

/-- Rounding half away from zero, the spec wording for the amount rounding. -/
def roundHalfAway (q : ℚ) : Int :=
  if 0 ≤ q then Int.floor (q + 1 / 2) else -Int.floor (-q + 1 / 2)

/-- `generateReferenceId` of App.tsx: the current year and
`Math.floor(10000 + Math.random() * 90000)`, with the random draw passed
in as a natural number. -/
def generateReferenceId (year : Nat) (rand : Nat) : String :=
  "TP-" ++ Nat.repr year ++ "-" ++ Nat.repr (10000 + rand % 90000)

/-! ## Constants and seeded state -/

/-- The `quickAmounts` buttons. -/
def quickAmounts : List Nat := [500, 1000, 2000, 5000]

/-- The empty draft (`defaultDraft`). -/
def defaultDraft : TransferDraft :=
  { recipient := "", amount := "", note := "" }

/-- The three fixture history entries, with timestamps relative to the boot
time `t0` (`Date.now()` at module initialisation). -/
def seededHistory (t0 : Int) : List HistoryEntry :=
  [ { id := "TP-2026-00018", recipient := "Kevin at work",
      note := "Reimbursement for tickets", amount := 4000,
      direction := .sent, timestamp := t0 - 1000 * 60 * 60 * 3 },
    { id := "TP-2026-00017", recipient := "Asha Fernando",
      note := "Dinner split from Friday", amount := 6200,
      direction := .sent, timestamp := t0 - 1000 * 60 * 60 * 26 },
    { id := "TP-2026-00016", recipient := "Salary",
      note := "November payroll", amount := 145000,
      direction := .received, timestamp := t0 - 1000 * 60 * 60 * 72 } ]

/-- The initial `useState` values of the App component. -/
def initState (t0 : Int) : AppState :=
  { screen := .login
    userName := ""
    loginName := "Chinthana"
    loginPin := ""
    rememberMe := true
    loginError := ""
    draft := defaultDraft
    pendingTransfer := none
    lastTransfer := none
    history := seededHistory t0
    balance := 125000
    transferError := ""
    historyFilter := .all
    historySearch := ""
    biometricStatus := .idle
    cameraStatus := .idle
    cameraError := ""
    offlineScanResult := ""
    offlineRecordedAt := none
    cameraStream := false }

/-! ## Event handlers (the in-scope logic of App.tsx) -/

/-- `handleLogin`. -/
def handleLogin (s : AppState) : AppState :=
  if jsTrim s.loginName = "" then
    { s with loginError := "Please enter your name" }
  else
    let s1 := { s with userName := jsTrim s.loginName, loginError := "", screen := .home }
    if !s1.rememberMe then { s1 with loginPin := "" } else s1

/-- `handleBack`: the context-sensitive inverse edge of the header button. -/
def handleBack (s : AppState) : AppState :=
  if s.screen = .transfer then { s with screen := .home }
  else if s.screen = .confirm then { s with screen := .transfer }
  else if s.screen = .history then { s with screen := .home }
  else if s.screen = .success then { s with screen := .home }
  else if s.screen = .offline then { s with screen := .transfer }
  else if s.screen = .offlineSuccess then { s with screen := .transfer }
  else s

/-- `handleContinueToConfirm`: validate the draft; on success stage a
`TransferDetail` and move to the confirm screen.  The `.nan`/infinite match
arms in the success position are unreachable: NaN is not truthy,
`-Infinity ≤ 0`, and `+Infinity > balance`. -/
def handleContinueToConfirm (clk : Clock) (rand : Nat) (s : AppState) : AppState :=
  let amountValue := jsParseNumber (stripGrouping s.draft.amount)
  if jsTrim s.draft.recipient = "" then
    { s with transferError := "Add a recipient name" }
  else if !amountValue.truthy || amountValue.leZero then
    { s with transferError := "Enter an amount above LKR 0" }
  else if amountValue.gtQ s.balance then
    { s with transferError := "Insufficient balance" }
  else
    match amountValue with
    | .fin q =>
      { s with transferError := ""
               pendingTransfer := some
                 { recipient := jsTrim s.draft.recipient
                   amount := round2 q
                   note := jsTrim s.draft.note
                   reference := generateReferenceId clk.year rand
                   timestamp := clk.nowMs }
               screen := .confirm }
    | _ => s

/-- `finalizeTransfer`: commit a transfer detail at commit time `now`. -/
def finalizeTransfer (detail : TransferDetail) (now : Int) (s : AppState) : AppState :=
  let completed : TransferDetail := { detail with timestamp := now }
  let entry : HistoryEntry :=
    { id := completed.reference
      recipient := completed.recipient
      note := completed.note
      amount := completed.amount
      direction := .sent
      timestamp := completed.timestamp }
  { s with history := entry :: s.history
           balance := max 0 (s.balance - completed.amount)
           lastTransfer := some completed
           draft := defaultDraft
           pendingTransfer := none
           biometricStatus := .idle
           screen := .success }

/-- `handleStartQrScan`, with the runtime camera capability, the permission
outcome, the random scan code and the clock passed in.  The asynchronous
grant path (requesting → scanning → 1.5 s timer → stream released) is
collapsed to its final state; the unsupported and denied paths are
synchronous in the source and modelled exactly. -/
def handleStartQrScan (support granted : Bool) (rand : Nat) (now : Int)
    (s : AppState) : AppState :=
  if s.cameraStatus = .requesting ∨ s.cameraStatus = .scanning then s
  else
    let s1 := { s with cameraError := "", offlineScanResult := "" }
    if !support then
      { s1 with cameraError := "Camera not supported in this browser."
                cameraStatus := .error }
    else if !granted then
      { s1 with cameraError := "Camera permission denied or unavailable."
                cameraStatus := .error }
    else
      { s1 with cameraStatus := .idle
                cameraStream := false
                offlineScanResult := "QR-" ++ Nat.repr (100000 + rand % 900000)
                offlineRecordedAt := some now
                screen := .offlineSuccess }

/-- `handleBottomNav`: rejected while logged out; the workflow-only screens
cannot be jumped to. -/
def handleBottomNav (next : Screen) (s : AppState) : AppState :=
  if s.userName = "" then s
  else if next = .confirm ∨ next = .success ∨ next = .offline ∨ next = .offlineSuccess then s
  else { s with screen := next }

/-- The logged-out guard executed at the top of `renderScreen` on every
render: force any non-login screen back to `login`. -/
def renderGuardStep (s : AppState) : AppState :=
  if s.userName = "" ∧ s.screen ≠ .login then { s with screen := .login } else s

/-- The predicate of the `filteredHistory` memo, for one entry. -/
def historyEntryMatches (filter : HistoryFilter) (query : String)
    (e : HistoryEntry) : Bool :=
  (decide (filter = .all) ||
    (match filter, e.direction with
     | .sent, .sent => true
     | .received, .received => true
     | _, _ => false)) &&
  (query.data.isEmpty ||
    jsIncludes (jsToLower e.recipient) query ||
    jsIncludes (jsToLower e.note) query)

/-- The `filteredHistory` memo of App.tsx. -/
def filteredHistory (s : AppState) : List HistoryEntry :=
  let query := jsToLower (jsTrim s.historySearch)
  s.history.filter (historyEntryMatches s.historyFilter query)

/-! ## The event alphabet and step function

Each constructor is one user-visible event of the component: a handler
invocation or a button/input whose inline `onClick`/`onChange` mutates
state.  A button that exists only on one rendered screen is guarded by
that screen, mirroring the render dispatch.  Clock readings, random draws
and camera capability are event parameters. -/

inductive Event
  | setLoginName (v : String)
  | setLoginPin (v : String)
  | setRememberMe (b : Bool)
  | loginSubmit
  | back
  | setRecipient (v : String)
  | setAmount (v : String)
  | setNote (v : String)
  | quickAmount (n : Nat)
  | continueToConfirm (clk : Clock) (rand : Nat)
  | goOffline
  | approve (now : Int)
  | cancelConfirm
  | startScan (support granted : Bool) (rand : Nat) (now : Int)
  | offlineBackToTransfer
  | leaveOfflineCleanup
  | successViewHistory
  | successSendAnother
  | successGoHome
  | offlineSuccessViewHistory
  | offlineSuccessBackTransfer
  | offlineSuccessGoHome
  | historyEmptyGoTransfer
  | homeGoTransfer
  | homeGoHistory
  | setHistoryFilter (f : HistoryFilter)
  | setHistorySearch (v : String)
  | bottomNav (next : Screen)
  | render
  deriving DecidableEq, Repr

/-- One step of the app: dispatch an event against the current state.
`approve` collapses the fingerprint timer chain of `handleFingerprint`
(verifying → verified → `finalizeTransfer`) to its final state;
`leaveOfflineCleanup` is the effect cleanup that stops the camera when the
offline screen is left. -/
def stepEvent (e : Event) (s : AppState) : AppState :=
  match e with
  | .setLoginName v => if s.screen = .login then { s with loginName := v } else s
  | .setLoginPin v => if s.screen = .login then { s with loginPin := v } else s
  | .setRememberMe b => if s.screen = .login then { s with rememberMe := b } else s
  | .loginSubmit => if s.screen = .login then handleLogin s else s
  | .back => handleBack s
  | .setRecipient v =>
    if s.screen = .transfer then { s with draft := { s.draft with recipient := v } } else s
  | .setAmount v =>
    if s.screen = .transfer then { s with draft := { s.draft with amount := v } } else s
  | .setNote v =>
    if s.screen = .transfer then { s with draft := { s.draft with note := v } } else s
  | .quickAmount n =>
    if s.screen = .transfer ∧ n ∈ quickAmounts then
      { s with draft := { s.draft with amount := Nat.repr n } }
    else s
  | .continueToConfirm clk rand =>
    if s.screen = .transfer then handleContinueToConfirm clk rand s else s
  | .goOffline => if s.screen = .transfer then { s with screen := .offline } else s
  | .approve now =>
    if s.screen = .confirm then
      match s.pendingTransfer with
      | none => { s with screen := .transfer }
      | some d => finalizeTransfer d now s
    else s
  | .cancelConfirm => if s.screen = .confirm then { s with screen := .transfer } else s
  | .startScan support granted rand now =>
    if s.screen = .offline then handleStartQrScan support granted rand now s else s
  | .offlineBackToTransfer =>
    if s.screen = .offline then { s with screen := .transfer } else s
  | .leaveOfflineCleanup =>
    if s.screen ≠ .offline then { s with cameraStream := false, cameraStatus := .idle } else s
  | .successViewHistory => if s.screen = .success then { s with screen := .history } else s
  | .successSendAnother =>
    if s.screen = .success then { s with draft := defaultDraft, screen := .transfer } else s
  | .successGoHome => if s.screen = .success then { s with screen := .home } else s
  | .offlineSuccessViewHistory =>
    if s.screen = .offlineSuccess then { s with screen := .history } else s
  | .offlineSuccessBackTransfer =>
    if s.screen = .offlineSuccess then { s with screen := .transfer } else s
  | .offlineSuccessGoHome =>
    if s.screen = .offlineSuccess then { s with screen := .home } else s
  | .historyEmptyGoTransfer =>
    if s.screen = .history then { s with screen := .transfer } else s
  | .homeGoTransfer => if s.screen = .home then { s with screen := .transfer } else s
  | .homeGoHistory => if s.screen = .home then { s with screen := .history } else s
  | .setHistoryFilter f =>
    if s.screen = .history then { s with historyFilter := f } else s
  | .setHistorySearch v =>
    if s.screen = .history then { s with historySearch := v } else s
  | .bottomNav next => handleBottomNav next s
  | .render => renderGuardStep s

/-- The states the app can reach from boot by any event sequence. -/
inductive Reachable : AppState → Prop
  | init (t0 : Int) : Reachable (initState t0)
  | step {s : AppState} (e : Event) : Reachable s → Reachable (stepEvent e s)

/-! ## Concrete states used to exercise the model -/

/-- A fixed clock reading (an instant in 2026). -/
def testClock : Clock := { nowMs := 1767225600000, year := 2026 }

/-- The spec's concrete draft: recipient "Asha", amount "2000", note "lunch". -/
def transferDraftAsha : TransferDraft :=
  { recipient := "Asha", amount := "2000", note := "lunch" }

/-- Logged in, on the transfer screen, with the draft above. -/
def transferStateAsha : AppState :=
  { initState 0 with screen := .transfer, userName := "Chinthana", draft := transferDraftAsha }

/-- The spec's concrete insufficiency scenario: balance 500, amount "600". -/
def lowBalanceState : AppState :=
  { initState 0 with
    screen := .transfer, userName := "Chinthana", balance := 500,
    draft := { recipient := "Asha", amount := "600", note := "" } }

/-- A draft with a whitespace-only recipient and an over-balance amount. -/
def blankRecipientState : AppState :=
  { initState 0 with
    screen := .transfer, userName := "Chinthana",
    draft := { recipient := "   ", amount := "999999", note := "" } }

/-- A draft whose amount string parses to positive infinity. -/
def infinityState : AppState :=
  { initState 0 with
    screen := .transfer, userName := "Chinthana",
    draft := { recipient := "Asha", amount := "Infinity", note := "" } }

/-- A draft whose amount string is non-numeric. -/
def transferDraftAbc : TransferDraft :=
  { recipient := "Asha", amount := "abc", note := "" }

/-- Logged in, on the transfer screen, with the non-numeric draft. -/
def invalidAmountState : AppState :=
  { initState 0 with
    screen := .transfer, userName := "Chinthana", draft := transferDraftAbc }

/-- A staged transfer detail as `handleContinueToConfirm` would build it. -/
def sampleDetail : TransferDetail :=
  { recipient := "Asha", amount := 2000, note := "lunch",
    reference := "TP-2026-10000", timestamp := 1767225600000 }

/-- On the confirm screen with `sampleDetail` staged and the draft intact. -/
def confirmState : AppState :=
  { initState 0 with
    screen := .confirm, userName := "Chinthana",
    pendingTransfer := some sampleDetail, draft := transferDraftAsha }

/-- Logged in, on the offline-payment screen, camera idle. -/
def offlineState : AppState :=
  { initState 0 with screen := .offline, userName := "Chinthana" }

/-- Logged in, on the history screen, no query, filter `all`. -/
def historyState : AppState :=
  { initState 0 with screen := .history, userName := "Chinthana" }

/-! ## Invariants -/

/-- Wallet invariant: the balance is never negative, and any staged
transfer detail has a non-negative (validated and rounded) amount. -/
def BalInv (s : AppState) : Prop :=
  0 ≤ s.balance ∧ ∀ d, s.pendingTransfer = some d → 0 ≤ d.amount

/-- Session invariant: while logged out the screen is `login`. -/
def LoginInv (s : AppState) : Prop :=
  s.userName = "" → s.screen = .login

lemma round2_nonneg {q : ℚ} (h : 0 < q) : 0 ≤ round2 q := by
  unfold round2 jsRound
  have h1 : (0 : ℚ) ≤ q * 100 + 1 / 2 := by positivity
  have h2 : (0 : Int) ≤ Int.floor (q * 100 + 1 / 2) := Int.floor_nonneg.mpr h1
  have h3 : (0 : ℚ) ≤ ((Int.floor (q * 100 + 1 / 2) : Int) : ℚ) := by exact_mod_cast h2
  positivity

lemma handleContinue_frame (clk : Clock) (rand : Nat) (s : AppState) :
    (handleContinueToConfirm clk rand s).userName = s.userName ∧
    (handleContinueToConfirm clk rand s).balance = s.balance ∧
    (handleContinueToConfirm clk rand s).history = s.history ∧
    (handleContinueToConfirm clk rand s).lastTransfer = s.lastTransfer ∧
    (handleContinueToConfirm clk rand s).draft = s.draft := by
  simp only [handleContinueToConfirm]
  cases hv : jsParseNumber (stripGrouping s.draft.amount) <;>
    split_ifs <;> simp

lemma balInv_handleContinue (clk : Clock) (rand : Nat) (s : AppState)
    (h : BalInv s) : BalInv (handleContinueToConfirm clk rand s) := by
  obtain ⟨hb, hp⟩ := h
  simp only [handleContinueToConfirm]
  cases hv : jsParseNumber (stripGrouping s.draft.amount) <;> split_ifs <;>
    try exact ⟨hb, hp⟩
  rename_i q _ hq _
  refine ⟨hb, ?_⟩
  intro d hd
  simp only [Option.some.injEq, AppState.mk.injEq] at hd
  simp only [JSNum.truthy, JSNum.leZero, Bool.not_eq_true', decide_eq_false_iff_not,
    Bool.or_eq_true, decide_eq_true_eq, not_or, Bool.not_eq_false, decide_eq_true_eq,
    ne_eq] at hq
  have hq2 : 0 < q := lt_of_not_ge (fun hle => hq.2 hle)
  have : d.amount = round2 q := by
    cases hd
    rfl
  rw [this]
  exact round2_nonneg hq2

lemma balInv_step (e : Event) (s : AppState) (h : BalInv s) :
    BalInv (stepEvent e s) := by
  obtain ⟨hb, hp⟩ := h
  cases e
  case continueToConfirm clk rand =>
    simp only [stepEvent]
    split_ifs
    · exact balInv_handleContinue clk rand s ⟨hb, hp⟩
    · exact ⟨hb, hp⟩
  case approve now =>
    simp only [stepEvent]
    split_ifs
    · cases hd : s.pendingTransfer with
      | none =>
        refine ⟨hb, ?_⟩
        intro d2 hd2
        simp at hd2
      | some d =>
        refine ⟨le_max_left 0 _, ?_⟩
        intro d2 hd2
        simp [finalizeTransfer] at hd2
    · exact ⟨hb, hp⟩
  all_goals
    simp only [stepEvent, handleLogin, handleBack, handleBottomNav, renderGuardStep,
      handleStartQrScan] <;>
    split_ifs <;> exact ⟨hb, hp⟩

lemma loginInv_step (e : Event) (s : AppState) (h : LoginInv s) :
    LoginInv (stepEvent e s) := by
  cases e
  case continueToConfirm clk rand =>
    simp only [stepEvent]
    split_ifs with hg
    · intro hu
      rw [(handleContinue_frame clk rand s).1] at hu
      exact absurd (h hu) (by rw [hg]; simp)
    · exact h
  case approve now =>
    simp only [stepEvent]
    split_ifs with hg
    · cases hd : s.pendingTransfer with
      | none => intro hu; exact absurd (h hu) (by rw [hg]; simp)
      | some d =>
        intro hu
        exact absurd (h hu) (by rw [hg]; simp)
    · exact h
  all_goals
    simp only [stepEvent, handleLogin, handleBack, handleBottomNav, renderGuardStep,
      handleStartQrScan, LoginInv] <;>
    split_ifs <;> intro hu <;>
      first
      | exact h hu
      | exact absurd hu (by assumption)
      | exact absurd (h hu) (by simp_all)

/-! ## Branch characterisation of `handleContinueToConfirm` -/

lemma continue_blank_eq (clk : Clock) (rand : Nat) (s : AppState)
    (hr : jsTrim s.draft.recipient = "") :
    handleContinueToConfirm clk rand s = { s with transferError := "Add a recipient name" } := by
  simp only [handleContinueToConfirm]
  rw [if_pos hr]

lemma continue_invalid_eq (clk : Clock) (rand : Nat) (s : AppState)
    (hr : jsTrim s.draft.recipient ≠ "")
    (hv : (!(jsParseNumber (stripGrouping s.draft.amount)).truthy ||
           (jsParseNumber (stripGrouping s.draft.amount)).leZero) = true) :
    handleContinueToConfirm clk rand s =
      { s with transferError := "Enter an amount above LKR 0" } := by
  simp only [handleContinueToConfirm]
  rw [if_neg hr, if_pos hv]

lemma continue_insufficient_eq (clk : Clock) (rand : Nat) (s : AppState)
    (hr : jsTrim s.draft.recipient ≠ "")
    (hv : (!(jsParseNumber (stripGrouping s.draft.amount)).truthy ||
           (jsParseNumber (stripGrouping s.draft.amount)).leZero) = false)
    (hgt : (jsParseNumber (stripGrouping s.draft.amount)).gtQ s.balance = true) :
    handleContinueToConfirm clk rand s =
      { s with transferError := "Insufficient balance" } := by
  simp only [handleContinueToConfirm]
  rw [if_neg hr, if_neg (by rw [hv]; exact Bool.false_ne_true), if_pos hgt]

lemma continue_success_eq (clk : Clock) (rand : Nat) (s : AppState) (q : ℚ)
    (hr : jsTrim s.draft.recipient ≠ "")
    (hp : jsParseNumber (stripGrouping s.draft.amount) = .fin q)
    (h0 : 0 < q) (hb : q ≤ s.balance) :
    handleContinueToConfirm clk rand s =
      { s with transferError := ""
               pendingTransfer := some
                 { recipient := jsTrim s.draft.recipient
                   amount := round2 q
                   note := jsTrim s.draft.note
                   reference := generateReferenceId clk.year rand
                   timestamp := clk.nowMs }
               screen := .confirm } := by
  have ht : (!(jsParseNumber (stripGrouping s.draft.amount)).truthy ||
             (jsParseNumber (stripGrouping s.draft.amount)).leZero) = false := by
    rw [hp]
    simp [JSNum.truthy, JSNum.leZero, h0.ne', not_le.mpr h0]
  have hg : (jsParseNumber (stripGrouping s.draft.amount)).gtQ s.balance = false := by
    rw [hp]
    simp [JSNum.gtQ, not_lt.mpr hb]
  simp only [handleContinueToConfirm]
  rw [if_neg hr, if_neg (by rw [ht]; exact Bool.false_ne_true),
    if_neg (by rw [hg]; exact Bool.false_ne_true), hp]

lemma continue_reject_of_gt (clk : Clock) (rand : Nat) (s : AppState)
    (hgt : (jsParseNumber (stripGrouping s.draft.amount)).gtQ s.balance = true) :
    (handleContinueToConfirm clk rand s).pendingTransfer = s.pendingTransfer ∧
    (handleContinueToConfirm clk rand s).screen = s.screen := by
  simp only [handleContinueToConfirm]
  cases hv : jsParseNumber (stripGrouping s.draft.amount) <;> rw [hv] at hgt <;>
    split_ifs <;> first
    | exact ⟨rfl, rfl⟩
    | exact absurd hgt (by assumption)
    | simp [JSNum.gtQ] at hgt

lemma step_balance_le (e : Event) (s : AppState) (h : BalInv s) :
    (stepEvent e s).balance ≤ s.balance := by
  obtain ⟨hb, hp⟩ := h
  cases e
  case approve now =>
    simp only [stepEvent]
    split_ifs
    · cases hd : s.pendingTransfer with
      | none => exact le_rfl
      | some d =>
        have ha := hp d hd
        have hbal : (finalizeTransfer d now s).balance = max 0 (s.balance - d.amount) := rfl
        rw [hbal]
        exact max_le hb (by linarith)
    · exact le_rfl
  case continueToConfirm clk rand =>
    simp only [stepEvent]
    split_ifs
    · exact le_of_eq (handleContinue_frame clk rand s).2.1
    · exact le_rfl
  all_goals
    simp only [stepEvent, handleLogin, handleBack, handleBottomNav, renderGuardStep,
      handleStartQrScan] <;>
    split_ifs <;> exact le_rfl

lemma step_balance_eq_of_ne_approve (e : Event) (s : AppState)
    (hne : ∀ now : Int, e ≠ Event.approve now) :
    (stepEvent e s).balance = s.balance := by
  cases e
  case approve now => exact absurd rfl (hne now)
  case continueToConfirm clk rand =>
    simp only [stepEvent]
    split_ifs
    · exact (handleContinue_frame clk rand s).2.1
    · rfl
  all_goals
    simp only [stepEvent, handleLogin, handleBack, handleBottomNav, renderGuardStep,
      handleStartQrScan] <;>
    split_ifs <;> rfl

lemma reachable_balInv {s : AppState} (h : Reachable s) : BalInv s := by
  induction h with
  | init t0 => exact ⟨by norm_num [initState], by simp [initState]⟩
  | step e _ ih => exact balInv_step e _ ih

lemma reachable_loginInv {s : AppState} (h : Reachable s) : LoginInv s := by
  induction h with
  | init t0 => intro _; rfl
  | step e _ ih => exact loginInv_step e _ ih

/-! ## Claim theorems -/

/-- C1: committing a pending TransferDetail (`finalizeTransfer`) prepends
exactly one HistoryEntry carrying the detail's reference (as id),
recipient, note and amount with direction `sent` (length grows by one and
every prior entry keeps its relative place), sets the balance to
`max 0 (balance − amount)`, stores the re-timestamped detail as
`lastTransfer`, resets the draft, clears the pending detail, resets the
biometric status to idle and moves to the success screen. -/
theorem commit_appends_history (s : AppState) (d : TransferDetail) (now : Int)
    (hp : s.pendingTransfer = some d) :
    (finalizeTransfer d now s).history =
      ({ id := d.reference, recipient := d.recipient, note := d.note,
         amount := d.amount, direction := .sent, timestamp := now } : HistoryEntry)
        :: s.history ∧
    (finalizeTransfer d now s).history.length = s.history.length + 1 ∧
    (∀ i : Nat, ((finalizeTransfer d now s).history)[i + 1]? = s.history[i]?) ∧
    (finalizeTransfer d now s).balance = max 0 (s.balance - d.amount) ∧
    (finalizeTransfer d now s).lastTransfer = some { d with timestamp := now } ∧
    (finalizeTransfer d now s).draft = defaultDraft ∧
    (finalizeTransfer d now s).pendingTransfer = none ∧
    (finalizeTransfer d now s).biometricStatus = BiometricStatus.idle ∧
    (finalizeTransfer d now s).screen = Screen.success ∧
    (s.screen = Screen.confirm → stepEvent (Event.approve now) s = finalizeTransfer d now s) := by
  refine ⟨rfl, rfl, ?_, rfl, rfl, rfl, rfl, rfl, rfl, ?_⟩
  · intro i
    simp [finalizeTransfer]
  · intro hc
    simp [stepEvent, hc, hp]

/-- Witness for C1 at a concrete confirm-screen state. -/
theorem commit_appends_history_witness :
    confirmState.pendingTransfer = some sampleDetail ∧
    (finalizeTransfer sampleDetail 1767225700000 confirmState).history.length =
      confirmState.history.length + 1 ∧
    (finalizeTransfer sampleDetail 1767225700000 confirmState).balance =
      max 0 (confirmState.balance - sampleDetail.amount) ∧
    (finalizeTransfer sampleDetail 1767225700000 confirmState).screen = Screen.success := by
  obtain ⟨-, h2, -, h4, -, -, -, -, h9, -⟩ :=
    commit_appends_history confirmState sampleDetail 1767225700000 rfl
  exact ⟨rfl, h2, h4, h9⟩

/-- C6: a blank (empty or all-whitespace) recipient is rejected with the
`EmptyRecipient` message regardless of the amount; no pending transfer is
created and the screen does not change. -/
theorem blank_recipient_rejected (clk : Clock) (rand : Nat) (s : AppState)
    (hr : jsTrim s.draft.recipient = "") :
    handleContinueToConfirm clk rand s = { s with transferError := "Add a recipient name" } ∧
    (handleContinueToConfirm clk rand s).pendingTransfer = s.pendingTransfer ∧
    (handleContinueToConfirm clk rand s).screen = s.screen := by
  have h := continue_blank_eq clk rand s hr
  exact ⟨h, by rw [h], by rw [h]⟩

/-- Witness for C6: whitespace recipient with an over-balance amount. -/
theorem blank_recipient_rejected_witness :
    jsTrim blankRecipientState.draft.recipient = "" ∧
    (handleContinueToConfirm testClock 0 blankRecipientState).transferError =
      "Add a recipient name" ∧
    (handleContinueToConfirm testClock 0 blankRecipientState).pendingTransfer = none ∧
    (handleContinueToConfirm testClock 0 blankRecipientState).screen = Screen.transfer := by
  have h := blank_recipient_rejected testClock 0 blankRecipientState (by decide)
  refine ⟨by decide, ?_, ?_, ?_⟩
  · rw [h.1]
  · rw [h.2.1]; rfl
  · rw [h.2.2]; rfl

/-- C7 counterexample: cancelling from the confirm screen does NOT discard
the pending TransferDetail — the Cancel button only sets the screen back
to `transfer`, so the staged detail survives. -/
theorem cancel_retains_pending_cex :
    (stepEvent Event.cancelConfirm confirmState).screen = Screen.transfer ∧
    (stepEvent Event.cancelConfirm confirmState).pendingTransfer = some sampleDetail ∧
    (stepEvent Event.cancelConfirm confirmState).pendingTransfer ≠ none := by
  refine ⟨by decide, by decide, by decide⟩

/-- C7 (amended): cancelling from the confirm screen returns to the
transfer screen with the draft preserved exactly as entered; the pending
TransferDetail is retained (not cleared) — it is only cleared by a commit
or overwritten by the next successful validation.  `handleBack` from
`confirm` behaves identically. -/
theorem cancel_preserves_draft (s : AppState) (hc : s.screen = Screen.confirm) :
    stepEvent Event.cancelConfirm s = { s with screen := Screen.transfer } ∧
    (stepEvent Event.cancelConfirm s).draft = s.draft ∧
    (stepEvent Event.cancelConfirm s).pendingTransfer = s.pendingTransfer ∧
    handleBack s = { s with screen := Screen.transfer } := by
  have h1 : stepEvent Event.cancelConfirm s = { s with screen := Screen.transfer } := by
    simp [stepEvent, hc]
  have h2 : handleBack s = { s with screen := Screen.transfer } := by
    simp [handleBack, hc]
  exact ⟨h1, by rw [h1], by rw [h1], h2⟩

/-- Witness for the amended C7 at the concrete confirm-screen state. -/
theorem cancel_preserves_draft_witness :
    confirmState.screen = Screen.confirm ∧
    stepEvent Event.cancelConfirm confirmState = { confirmState with screen := Screen.transfer } ∧
    (stepEvent Event.cancelConfirm confirmState).draft = transferDraftAsha := by
  have h := cancel_preserves_draft confirmState rfl
  exact ⟨rfl, h.1, by rw [h.2.1]; rfl⟩

/-- C10: invoking the QR scan in a runtime without camera capability (and
not already mid-request/mid-scan) sets the camera status to `error` with a
non-empty message, performs no screen transition, acquires no stream and
records no offline scan result or timestamp. -/
theorem scan_unsupported_fails (granted : Bool) (rand : Nat) (now : Int) (s : AppState)
    (h1 : s.cameraStatus ≠ CameraStatus.requesting)
    (h2 : s.cameraStatus ≠ CameraStatus.scanning) :
    handleStartQrScan false granted rand now s =
      { s with
        offlineScanResult := "",
        cameraError := "Camera not supported in this browser.",
        cameraStatus := CameraStatus.error } ∧
    (handleStartQrScan false granted rand now s).cameraStatus = CameraStatus.error ∧
    (handleStartQrScan false granted rand now s).cameraError ≠ "" ∧
    (handleStartQrScan false granted rand now s).screen = s.screen ∧
    (handleStartQrScan false granted rand now s).cameraStream = s.cameraStream ∧
    (handleStartQrScan false granted rand now s).offlineScanResult = "" ∧
    (handleStartQrScan false granted rand now s).offlineRecordedAt = s.offlineRecordedAt := by
  have heq : handleStartQrScan false granted rand now s =
      { s with
        offlineScanResult := "",
        cameraError := "Camera not supported in this browser.",
        cameraStatus := CameraStatus.error } := by
    simp only [handleStartQrScan]
    rw [if_neg (not_or.mpr ⟨h1, h2⟩)]
    rfl
  refine ⟨heq, ?_, ?_, ?_, ?_, ?_, ?_⟩ <;> rw [heq]
  exact fun hc => by simp at hc

/-- Witness for C10 on the concrete offline-screen state. -/
theorem scan_unsupported_fails_witness :
    offlineState.cameraStatus ≠ CameraStatus.requesting ∧
    (handleStartQrScan false true 0 1767225600000 offlineState).cameraStatus =
      CameraStatus.error ∧
    (handleStartQrScan false true 0 1767225600000 offlineState).screen = Screen.offline ∧
    (handleStartQrScan false true 0 1767225600000 offlineState).cameraError ≠ "" := by
  have h := scan_unsupported_fails true 0 1767225600000 offlineState (by decide) (by decide)
  exact ⟨by decide, h.2.1, by rw [h.2.2.2.1]; rfl, h.2.2.1⟩

/-- C3: for a draft passing validation (non-blank recipient, parsed amount
positive and at most the balance), `handleContinueToConfirm` stages a
TransferDetail with the rounded amount (`round(x*100)/100`, which on
positive amounts is round-half-away-from-zero), trimmed recipient/note, a
reference of shape `TP-<year>-<5-digit>` and the current time, moves to
`confirm`, and leaves balance, history, lastTransfer and the draft
unchanged. -/
theorem validate_success_detail (clk : Clock) (rand : Nat) (s : AppState) (q : ℚ)
    (hr : jsTrim s.draft.recipient ≠ "")
    (hp : jsParseNumber (stripGrouping s.draft.amount) = .fin q)
    (h0 : 0 < q) (hb : q ≤ s.balance) :
    handleContinueToConfirm clk rand s =
      { s with transferError := ""
               pendingTransfer := some
                 { recipient := jsTrim s.draft.recipient
                   amount := round2 q
                   note := jsTrim s.draft.note
                   reference := generateReferenceId clk.year rand
                   timestamp := clk.nowMs }
               screen := .confirm } ∧
    (handleContinueToConfirm clk rand s).screen = Screen.confirm ∧
    (handleContinueToConfirm clk rand s).balance = s.balance ∧
    (handleContinueToConfirm clk rand s).history = s.history ∧
    (handleContinueToConfirm clk rand s).lastTransfer = s.lastTransfer ∧
    (handleContinueToConfirm clk rand s).draft = s.draft ∧
    round2 q = ((roundHalfAway (q * 100) : ℚ)) / 100 ∧
    (∃ n : Nat, 10000 ≤ n ∧ n ≤ 99999 ∧
       generateReferenceId clk.year rand =
         "TP-" ++ Nat.repr clk.year ++ "-" ++ Nat.repr n) := by
  have h := continue_success_eq clk rand s q hr hp h0 hb
  refine ⟨h, by rw [h], by rw [h], by rw [h], by rw [h], by rw [h], ?_, ?_⟩
  · unfold round2 jsRound roundHalfAway
    rw [if_pos (by positivity : (0:ℚ) ≤ q * 100)]
  · refine ⟨10000 + rand % 90000, by omega, ?_, rfl⟩
    have := Nat.mod_lt rand (show 0 < 90000 by norm_num)
    omega

/-- Witness for C3: the spec's concrete scenario (balance 125000, draft
Asha/"2000"/lunch) validates to a detail with amount 2000. -/
theorem validate_success_detail_witness :
    jsParseNumber (stripGrouping transferStateAsha.draft.amount) = JSNum.fin 2000 ∧
    (handleContinueToConfirm testClock 42 transferStateAsha).screen = Screen.confirm ∧
    (handleContinueToConfirm testClock 42 transferStateAsha).pendingTransfer = some
      { recipient := "Asha", amount := 2000, note := "lunch",
        reference := "TP-2026-10042", timestamp := 1767225600000 } ∧
    (handleContinueToConfirm testClock 42 transferStateAsha).balance = 125000 := by
  have h := validate_success_detail testClock 42 transferStateAsha 2000
    (by decide) (by decide) (by decide) (by decide)
  refine ⟨by decide, h.2.1, ?_, ?_⟩
  · rw [h.1]
    have hamt : round2 2000 = (2000 : ℚ) := by
      unfold round2 jsRound
      norm_num
    simp only [Option.some.injEq, TransferDetail.mk.injEq, hamt]
    exact ⟨by decide, trivial, by decide, by decide, rfl⟩
  · rw [h.2.2.1]
    rfl

/-- C4: a positive parsed amount strictly above the balance is rejected
with `InsufficientBalance`, changing only the error message; an amount
exactly equal to the balance passes the insufficiency check; and in the
concrete scenario balance 500 / amount "600" the rejection fires with the
balance left at 500. -/
theorem insufficient_balance_rejected :
    (∀ (clk : Clock) (rand : Nat) (s : AppState) (q : ℚ),
       jsTrim s.draft.recipient ≠ "" →
       jsParseNumber (stripGrouping s.draft.amount) = .fin q →
       0 < q → s.balance < q →
       handleContinueToConfirm clk rand s = { s with transferError := "Insufficient balance" }) ∧
    (∀ (clk : Clock) (rand : Nat) (s : AppState),
       jsTrim s.draft.recipient ≠ "" →
       jsParseNumber (stripGrouping s.draft.amount) = .fin s.balance →
       0 < s.balance →
       (handleContinueToConfirm clk rand s).transferError ≠ "Insufficient balance" ∧
       (handleContinueToConfirm clk rand s).screen = Screen.confirm) ∧
    (∀ (clk : Clock) (rand : Nat) (s : AppState),
       s.balance = 500 → s.draft.amount = "600" → jsTrim s.draft.recipient ≠ "" →
       handleContinueToConfirm clk rand s = { s with transferError := "Insufficient balance" } ∧
       (handleContinueToConfirm clk rand s).balance = 500) := by
  refine ⟨?_, ?_, ?_⟩
  · intro clk rand s q hr hp h0 hgt
    apply continue_insufficient_eq clk rand s hr
    · rw [hp]
      simp [JSNum.truthy, JSNum.leZero, h0.ne', not_le.mpr h0]
    · rw [hp]
      simp [JSNum.gtQ, hgt]
  · intro clk rand s hr hp h0
    have h := continue_success_eq clk rand s s.balance hr hp h0 le_rfl
    constructor
    · rw [h]
      simp
    · rw [h]
  · intro clk rand s hbal hamt hr
    have hp : jsParseNumber (stripGrouping s.draft.amount) = .fin 600 := by
      rw [hamt]; decide
    have heq : handleContinueToConfirm clk rand s =
        { s with transferError := "Insufficient balance" } := by
      apply continue_insufficient_eq clk rand s hr
      · rw [hp]; decide
      · rw [hp, hbal]; decide
    exact ⟨heq, by rw [heq]; exact hbal⟩

/-- Witness for C4: the concrete balance-500/amount-"600" state. -/
theorem insufficient_balance_rejected_witness :
    lowBalanceState.balance = 500 ∧
    jsTrim lowBalanceState.draft.recipient ≠ "" ∧
    (handleContinueToConfirm testClock 0 lowBalanceState).transferError =
      "Insufficient balance" ∧
    (handleContinueToConfirm testClock 0 lowBalanceState).balance = 500 := by
  have h := insufficient_balance_rejected.2.2 testClock 0 lowBalanceState rfl rfl (by decide)
  exact ⟨rfl, by decide, by rw [h.1], h.2⟩

/-- C5 counterexample: the amount string "Infinity" does not parse as a
positive finite number, yet the code reports "Insufficient balance"
instead of the InvalidAmount message "Enter an amount above LKR 0". -/
theorem invalid_amount_infinity_cex :
    jsParseNumber (stripGrouping infinityState.draft.amount) = JSNum.posInf ∧
    (handleContinueToConfirm testClock 0 infinityState).transferError =
      "Insufficient balance" ∧
    (handleContinueToConfirm testClock 0 infinityState).transferError ≠
      "Enter an amount above LKR 0" := by
  exact ⟨by decide, by decide, by decide⟩

lemma insufficient_ne_invalid :
    "Insufficient balance" ≠ "Enter an amount above LKR 0" := by decide

lemma empty_ne_invalid : "" ≠ "Enter an amount above LKR 0" := by decide

/-- C5 (amended): with a non-blank recipient, validation fails with the
InvalidAmount message exactly when the parsed amount is NaN (non-numeric),
zero, negative, or negative infinity; on that failure only the error
message changes (no pending transfer, no screen change).  An amount
parsing to positive infinity is not caught by the positivity check and is
instead rejected as InsufficientBalance. -/
theorem invalid_amount_characterisation (clk : Clock) (rand : Nat) (s : AppState)
    (hr : jsTrim s.draft.recipient ≠ "") :
    ((handleContinueToConfirm clk rand s).transferError = "Enter an amount above LKR 0" ↔
      (jsParseNumber (stripGrouping s.draft.amount) = JSNum.nan ∨
       jsParseNumber (stripGrouping s.draft.amount) = JSNum.negInf ∨
       ∃ q : ℚ, jsParseNumber (stripGrouping s.draft.amount) = JSNum.fin q ∧ q ≤ 0)) ∧
    ((jsParseNumber (stripGrouping s.draft.amount) = JSNum.nan ∨
      jsParseNumber (stripGrouping s.draft.amount) = JSNum.negInf ∨
      ∃ q : ℚ, jsParseNumber (stripGrouping s.draft.amount) = JSNum.fin q ∧ q ≤ 0) →
      handleContinueToConfirm clk rand s =
        { s with transferError := "Enter an amount above LKR 0" }) ∧
    (jsParseNumber (stripGrouping s.draft.amount) = JSNum.posInf →
      handleContinueToConfirm clk rand s =
        { s with transferError := "Insufficient balance" }) := by
  cases hv : jsParseNumber (stripGrouping s.draft.amount) with
  | nan =>
    have heq := continue_invalid_eq clk rand s hr (by rw [hv]; rfl)
    exact ⟨iff_of_true (by rw [heq]) (Or.inl rfl), fun _ => heq,
      fun hpi => absurd hpi (fun h => JSNum.noConfusion h)⟩
  | negInf =>
    have heq := continue_invalid_eq clk rand s hr (by rw [hv]; rfl)
    exact ⟨iff_of_true (by rw [heq]) (Or.inr (Or.inl rfl)), fun _ => heq,
      fun hpi => absurd hpi (fun h => JSNum.noConfusion h)⟩
  | posInf =>
    have heq := continue_insufficient_eq clk rand s hr (by rw [hv]; rfl) (by rw [hv]; rfl)
    have hnm : ¬(JSNum.posInf = JSNum.nan ∨ JSNum.posInf = JSNum.negInf ∨
        ∃ q2 : ℚ, JSNum.posInf = JSNum.fin q2 ∧ q2 ≤ 0) := by
      rintro (h | h | ⟨q2, hq2, -⟩)
      · exact JSNum.noConfusion h
      · exact JSNum.noConfusion h
      · exact JSNum.noConfusion hq2
    exact ⟨iff_of_false (by rw [heq]; exact insufficient_ne_invalid) hnm,
      fun hmem => absurd hmem hnm, fun _ => heq⟩
  | fin q =>
    by_cases hq : q ≤ 0
    · have hb : (!(jsParseNumber (stripGrouping s.draft.amount)).truthy ||
          (jsParseNumber (stripGrouping s.draft.amount)).leZero) = true := by
        rw [hv]
        simp [JSNum.truthy, JSNum.leZero, hq]
      have heq := continue_invalid_eq clk rand s hr hb
      exact ⟨iff_of_true (by rw [heq]) (Or.inr (Or.inr ⟨q, rfl, hq⟩)), fun _ => heq,
        fun hpi => absurd hpi (fun h => JSNum.noConfusion h)⟩
    · push_neg at hq
      have hnotmem : ¬(JSNum.fin q = JSNum.nan ∨ JSNum.fin q = JSNum.negInf ∨
          ∃ q2 : ℚ, JSNum.fin q = JSNum.fin q2 ∧ q2 ≤ 0) := by
        rintro (h | h | ⟨q2, hq2, hle⟩)
        · exact JSNum.noConfusion h
        · exact JSNum.noConfusion h
        · injection hq2 with h2
          exact absurd hle (not_le.mpr (h2 ▸ hq))
      have hb : (!(jsParseNumber (stripGrouping s.draft.amount)).truthy ||
          (jsParseNumber (stripGrouping s.draft.amount)).leZero) = false := by
        rw [hv]
        simp [JSNum.truthy, JSNum.leZero, hq.ne', not_le.mpr hq]
      by_cases hgt : s.balance < q
      · have heq := continue_insufficient_eq clk rand s hr hb
          (by rw [hv]; simp [JSNum.gtQ, hgt])
        exact ⟨iff_of_false (by rw [heq]; exact insufficient_ne_invalid) hnotmem,
          fun hmem => absurd hmem hnotmem,
          fun hpi => absurd hpi (fun h => JSNum.noConfusion h)⟩
      · push_neg at hgt
        have heq := continue_success_eq clk rand s q hr hv hq hgt
        exact ⟨iff_of_false (by rw [heq]; exact empty_ne_invalid) hnotmem,
          fun hmem => absurd hmem hnotmem,
          fun hpi => absurd hpi (fun h => JSNum.noConfusion h)⟩

/-- Witness for the amended C5: a non-numeric amount string "abc" is
rejected with the InvalidAmount message. -/
theorem invalid_amount_characterisation_witness :
    jsTrim invalidAmountState.draft.recipient ≠ "" ∧
    jsParseNumber (stripGrouping invalidAmountState.draft.amount) = JSNum.nan ∧
    (handleContinueToConfirm testClock 0 invalidAmountState).transferError =
      "Enter an amount above LKR 0" := by
  have h := invalid_amount_characterisation testClock 0 invalidAmountState (by decide)
  refine ⟨by decide, by decide, ?_⟩
  rw [h.2.1 (Or.inl (by decide))]

/-- C2: the wallet balance is non-negative in every reachable state; no
event ever increases it from a reachable state; the balance is modified
only by the approve/commit event; and a draft whose parsed amount exceeds
the balance is rejected with no mutation of balance, history, pending
transfer or screen. -/
theorem balance_invariant :
    (∀ s : AppState, Reachable s → 0 ≤ s.balance) ∧
    (∀ (s : AppState) (e : Event), Reachable s → (stepEvent e s).balance ≤ s.balance) ∧
    (∀ (s : AppState) (e : Event), (stepEvent e s).balance ≠ s.balance →
       ∃ now : Int, e = Event.approve now) ∧
    (∀ (clk : Clock) (rand : Nat) (s : AppState),
       (jsParseNumber (stripGrouping s.draft.amount)).gtQ s.balance = true →
       (handleContinueToConfirm clk rand s).balance = s.balance ∧
       (handleContinueToConfirm clk rand s).history = s.history ∧
       (handleContinueToConfirm clk rand s).pendingTransfer = s.pendingTransfer ∧
       (handleContinueToConfirm clk rand s).screen = s.screen) := by
  refine ⟨fun s h => (reachable_balInv h).1,
    fun s e h => step_balance_le e s (reachable_balInv h), ?_, ?_⟩
  · intro s e hdiff
    cases e
    case approve now => exact ⟨now, rfl⟩
    all_goals
      exact absurd (step_balance_eq_of_ne_approve _ _ (fun _ h => Event.noConfusion h)) hdiff
  · intro clk rand s hgt
    have hfr := handleContinue_frame clk rand s
    have hrej := continue_reject_of_gt clk rand s hgt
    exact ⟨hfr.2.1, hfr.2.2.1, hrej.1, hrej.2⟩

/-- Witness for C2 at the boot state and the over-balance draft. -/
theorem balance_invariant_witness :
    0 ≤ (initState 0).balance ∧
    (stepEvent (Event.bottomNav Screen.transfer) (initState 0)).balance ≤
      (initState 0).balance ∧
    (jsParseNumber (stripGrouping infinityState.draft.amount)).gtQ infinityState.balance =
      true ∧
    (handleContinueToConfirm testClock 1 infinityState).balance = infinityState.balance := by
  exact ⟨balance_invariant.1 (initState 0) (Reachable.init 0),
    balance_invariant.2.1 (initState 0) (Event.bottomNav Screen.transfer) (Reachable.init 0),
    by decide,
    (balance_invariant.2.2.2 testClock 1 infinityState (by decide)).1⟩

/-- C8: in every reachable state, being logged out (empty `userName`)
forces the current screen to be `login` — so transfer, history and
confirm are unreachable while logged out; a bottom-navigation attempt
while logged out leaves the state entirely unchanged; and the per-render
guard sends any logged-out state to `login`. -/
theorem logged_out_forces_login :
    (∀ s : AppState, Reachable s → s.userName = "" → s.screen = Screen.login) ∧
    (∀ s : AppState, Reachable s → s.userName = "" →
       s.screen ≠ Screen.transfer ∧ s.screen ≠ Screen.history ∧ s.screen ≠ Screen.confirm) ∧
    (∀ (s : AppState) (next : Screen), s.userName = "" →
       stepEvent (Event.bottomNav next) s = s) ∧
    (∀ s : AppState, s.userName = "" → (renderGuardStep s).screen = Screen.login) := by
  have h1 : ∀ s : AppState, Reachable s → s.userName = "" → s.screen = Screen.login :=
    fun s h hu => reachable_loginInv h hu
  refine ⟨h1, ?_, ?_, ?_⟩
  · intro s h hu
    rw [h1 s h hu]
    exact ⟨fun hc => Screen.noConfusion hc, fun hc => Screen.noConfusion hc,
      fun hc => Screen.noConfusion hc⟩
  · intro s next hu
    simp only [stepEvent, handleBottomNav]
    rw [if_pos hu]
  · intro s hu
    unfold renderGuardStep
    split_ifs with hg
    · rfl
    · push_neg at hg
      exact hg hu

/-- Witness for C8 at the logged-out boot state. -/
theorem logged_out_forces_login_witness :
    (initState 0).userName = "" ∧
    (initState 0).screen = Screen.login ∧
    stepEvent (Event.bottomNav Screen.history) (initState 0) = initState 0 ∧
    (renderGuardStep (initState 0)).screen = Screen.login := by
  exact ⟨rfl, logged_out_forces_login.1 (initState 0) (Reachable.init 0) rfl,
    logged_out_forces_login.2.2.1 (initState 0) Screen.history rfl,
    logged_out_forces_login.2.2.2 (initState 0) rfl⟩

lemma jsToLower_data_nil_iff (x : String) : (jsToLower x).data = [] ↔ x = "" := by
  constructor
  · intro h
    cases x with
    | mk data =>
      cases data with
      | nil => rfl
      | cons c t => simp [jsToLower] at h
  · intro h
    rw [h]
    rfl

lemma historyEntryMatches_iff (f : HistoryFilter) (x : String) (e : HistoryEntry) :
    historyEntryMatches f (jsToLower x) e = true ↔
      ((f = HistoryFilter.all ∨
        (f = HistoryFilter.sent ∧ e.direction = Direction.sent) ∨
        (f = HistoryFilter.received ∧ e.direction = Direction.received)) ∧
       (x = "" ∨
        jsIncludes (jsToLower e.recipient) (jsToLower x) = true ∨
        jsIncludes (jsToLower e.note) (jsToLower x) = true)) := by
  unfold historyEntryMatches
  cases f <;> cases hd : e.direction <;>
    simp [Bool.or_eq_true, Bool.and_eq_true, jsToLower_data_nil_iff, hd, or_assoc]

/-- C9: the history view is a pure, order-preserving filter: it is the
`List.filter` of the underlying history (hence a sublist, never
re-sorted, history unmutated), an entry is kept exactly when the
direction filter is `all` or matches its direction AND the query is blank
or a (lower-cased) substring of its recipient or note; and over an
unchanged history with an empty query, selecting `sent`, then `received`,
then `all` reproduces the full original sequence. -/
theorem history_filter_pure :
    (∀ s : AppState, filteredHistory s =
       s.history.filter
         (historyEntryMatches s.historyFilter (jsToLower (jsTrim s.historySearch)))) ∧
    (∀ s : AppState, List.Sublist (filteredHistory s) s.history) ∧
    (∀ (s : AppState) (e : HistoryEntry),
       e ∈ filteredHistory s ↔
         e ∈ s.history ∧
         (s.historyFilter = HistoryFilter.all ∨
          (s.historyFilter = HistoryFilter.sent ∧ e.direction = Direction.sent) ∨
          (s.historyFilter = HistoryFilter.received ∧ e.direction = Direction.received)) ∧
         (jsTrim s.historySearch = "" ∨
          jsIncludes (jsToLower e.recipient) (jsToLower (jsTrim s.historySearch)) = true ∨
          jsIncludes (jsToLower e.note) (jsToLower (jsTrim s.historySearch)) = true)) ∧
    (∀ s : AppState, s.screen = Screen.history → s.historySearch = "" →
       (stepEvent (Event.setHistoryFilter HistoryFilter.all)
         (stepEvent (Event.setHistoryFilter HistoryFilter.received)
           (stepEvent (Event.setHistoryFilter HistoryFilter.sent) s))).history = s.history ∧
       filteredHistory
         (stepEvent (Event.setHistoryFilter HistoryFilter.all)
           (stepEvent (Event.setHistoryFilter HistoryFilter.received)
             (stepEvent (Event.setHistoryFilter HistoryFilter.sent) s))) = s.history) := by
  have hdef : ∀ s : AppState, filteredHistory s =
      s.history.filter
        (historyEntryMatches s.historyFilter (jsToLower (jsTrim s.historySearch))) :=
    fun s => rfl
  refine ⟨hdef, ?_, ?_, ?_⟩
  · intro s
    rw [hdef]
    exact List.filter_sublist _
  · intro s e
    rw [hdef, List.mem_filter]
    exact and_congr_right (fun _ => historyEntryMatches_iff _ _ e)
  · intro s hsc hq
    have hs3 : stepEvent (Event.setHistoryFilter HistoryFilter.all)
        (stepEvent (Event.setHistoryFilter HistoryFilter.received)
          (stepEvent (Event.setHistoryFilter HistoryFilter.sent) s)) =
        { s with historyFilter := HistoryFilter.all } := by
      simp [stepEvent, hsc]
    refine ⟨by rw [hs3], ?_⟩
    rw [hs3, hdef]
    have hq2 : jsToLower (jsTrim ({ s with historyFilter := HistoryFilter.all }).historySearch) =
        "" := by
      have : ({ s with historyFilter := HistoryFilter.all }).historySearch = "" := hq
      rw [this]
      rfl
    rw [hq2]
    refine List.filter_eq_self.mpr ?_
    intro a _
    rfl

/-- Witness for C9 at a concrete history-screen state. -/
theorem history_filter_pure_witness :
    historyState.screen = Screen.history ∧
    historyState.historySearch = "" ∧
    filteredHistory
      (stepEvent (Event.setHistoryFilter HistoryFilter.all)
        (stepEvent (Event.setHistoryFilter HistoryFilter.received)
          (stepEvent (Event.setHistoryFilter HistoryFilter.sent) historyState))) =
      historyState.history := by
  exact ⟨rfl, rfl, (history_filter_pure.2.2.2 historyState rfl rfl).2⟩

end TrustiPay
